import Mathlib

/-!
Shallow embedding of the girder API slice (`girder/api/v1/user.py` and
`girder/api/describe.py`) and proofs about it.

Machine integers do not occur; all ids, status codes and lifetimes are small
naturals.  Python strings are Lean `String`s.  Stateful code (the token store,
the response cookie, the mutable `Description` builder objects) is embedded by
explicit state passing.  External collaborators (the document store, the
password verifier, base64 decoding from the standard library, the settings
store) are parameters of the embedded functions, mirroring the spec's "external
collaborators" boundary.
-/

namespace Girder

/-- A stored user document, with the fields that `user.py` reads. -/
structure UserDoc where
  _id : Nat
  login : String
  email : String
  firstName : String
  lastName : String
  admin : Bool
deriving DecidableEq, Repr

/-- A token document as produced by `createToken(user, days=...)`. -/
structure TokenDoc where
  _id : Nat
  userId : Nat
  days : Nat
deriving DecidableEq, Repr

/-- The token collection together with the id the store would assign next. -/
structure TokenState where
  tokens : List TokenDoc
  nextId : Nat
deriving DecidableEq, Repr

/-- The `authToken` response cookie as set by `_sendAuthTokenCookie`: its value
is the JSON object with entries `userId` and `token`, its path and its
lifetime in seconds. -/
structure AuthCookie where
  name : String
  userId : String
  token : String
  path : String
  expires : Nat
deriving DecidableEq, Repr

/-- Embedding of `self.model('token').createToken(user, days=...)`: appends a
fresh token for the user to the store. -/
def createToken (st : TokenState) (user : UserDoc) (days : Nat) :
    TokenDoc × TokenState :=
  let t : TokenDoc := ⟨st.nextId, user._id, days⟩
  (t, ⟨st.tokens ++ [t], st.nextId + 1⟩)

/-- Embedding of `User._sendAuthTokenCookie` (user.py lines 67-79): creates a
token with `days=self.COOKIE_LIFETIME` and sets the `authToken` cookie with
value `json.dumps({'userId': str(user['_id']), 'token': str(token['_id'])})`,
path `/` and lifetime `self.COOKIE_LIFETIME * 3600 * 24` seconds. -/
def sendAuthTokenCookie (cookieLifetime : Nat) (st : TokenState)
    (user : UserDoc) : TokenDoc × TokenState × AuthCookie :=
  let r := createToken st user cookieLifetime
  (r.1, r.2,
    ⟨"authToken", toString user._id, toString r.1._id, "/",
      cookieLifetime * 3600 * 24⟩)

/-- Embedding of `self.model('setting').get(SettingKey.COOKIE_LIFETIME,
default=180)` (user.py lines 34-35): the configured lifetime in days, 180 when
no setting is configured. -/
def cookieLifetimeSetting (configured : Option Nat) : Nat :=
  configured.getD 180

/-- Modelled from the spec: `RestException` lives in `rest.py`, which is not
part of this slice, so its default status code is taken from the spec.  The
error taxonomy of spec section 7 gives malformed-input errors status 400, and
section 6 calls the default-code error of `describeResource` "a 400-class
error", so a `RestException` raised without an explicit code carries 400. -/
def restExceptionDefaultCode : Nat := 400

/-- Embedding of Python's slicing `s[0:n]`. -/
def pySlice (s : String) (n : Nat) : String :=
  String.mk (s.data.take n)

/-- Embedding of Python's slicing `s[n:]`. -/
def pySliceFrom (s : String) (n : Nat) : String :=
  String.mk (s.data.drop n)

/-- Embedding of Python's `str.lower()` (basic latin letters, which is all the
login identifiers this slice compares). -/
def pyLower (s : String) : String :=
  String.mk (s.data.map Char.toLower)

/-- Embedding of Python's `str.strip()`: remove whitespace from both ends. -/
def pyStrip (s : String) : String :=
  String.mk
    (((s.data.dropWhile Char.isWhitespace).reverse.dropWhile
        Char.isWhitespace).reverse)

/-- Embedding of Python's `c in s` for a single-character needle. -/
def pyContains (s : String) (c : Char) : Bool :=
  s.data.any (fun a => a == c)

/-- Auxiliary for Python's `str.split(sep, 1)` restricted to the two-part
case: split a character list at the first occurrence of `c`. -/
def splitFirstAux (c : Char) : List Char → Option (List Char × List Char)
  | [] => none
  | x :: xs =>
    if x = c then some ([], xs)
    else
      match splitFirstAux c xs with
      | none => none
      | some p => some (x :: p.1, p.2)

/-- Python's `s.split(c, 1)` when it yields two parts: `none` when `c` does
not occur in `s` (in which case the two-target unpacking in the source raises
an uncaught `ValueError`). -/
def splitFirst (s : String) (c : Char) : Option (String × String) :=
  match splitFirstAux c s.data with
  | none => none
  | some p => some (String.mk p.1, String.mk p.2)

/-- Outcome of the login endpoint: a `RestException` with message and status
code, an uncaught exception, or success with the resolved user and token. -/
inductive LoginOutcome where
  | err (message : String) (code : Nat)
  | exn
  | ok (user : UserDoc) (token : TokenDoc)
deriving DecidableEq, Repr

/-- Embedding of `User.login` (user.py lines 135-181).  Parameters standing
for the external collaborators: `users` is the user collection in store order
(`find` with `limit=1` returns its first match), `authenticate` is
`self.model('password').authenticate`, `b64decode` is `base64.b64decode`
(returning `none` when it raises), `cookieLifetime` is `self.COOKIE_LIFETIME`,
`currentUser` is the result of `self.getCurrentUser(returnToken=True)` and
`authHeader` is the request's `Authorization` header.  The result is the
outcome together with the token store after the call and the `authToken`
cookie set on the response, if any. -/
def login (users : List UserDoc) (authenticate : UserDoc → String → Bool)
    (b64decode : String → Option String) (cookieLifetime : Nat)
    (currentUser : Option (UserDoc × TokenDoc)) (authHeader : Option String)
    (st : TokenState) : LoginOutcome × TokenState × Option AuthCookie :=
  match currentUser with
  | some ut => (.ok ut.1 ut.2, st, none)
  | none =>
    match authHeader with
    | none => (.err "Use HTTP Basic Authentication" 401, st, none)
    | some h =>
      if pySlice h 6 = "Basic " then
        match b64decode (pySliceFrom h 6) with
        | none =>
          (.err "Invalid HTTP Authorization header" restExceptionDefaultCode,
            st, none)
        | some credentials =>
          match splitFirst credentials ':' with
          | none => (.exn, st, none)
          | some lp =>
            let lg := pyStrip (pyLower lp.1)
            let isEmail := pyContains lg '@'
            match users.find?
                (fun u => (if isEmail then u.email else u.login) == lg) with
            | none => (.err "Login failed." 403, st, none)
            | some user =>
              if authenticate user lp.2 then
                let r := sendAuthTokenCookie cookieLifetime st user
                (.ok user r.1, r.2.1, some r.2.2)
              else (.err "Login failed." 403, st, none)
      else (.err "Use HTTP Basic Authentication" 401, st, none)

/-- A value stored in a user document: the concrete value types this slice
moves around (strings, integers such as the computed access level, flags). -/
inductive Val where
  | s (v : String)
  | n (v : Int)
  | b (v : Bool)
deriving DecidableEq, Repr

/-- A user document as a key-value record, embedding the Python dict. -/
abbrev Doc := List (String × Val)

/-- Python's `k in doc` on a dict. -/
def hasKey (doc : Doc) (k : String) : Bool :=
  doc.any (fun kv => kv.1 == k)

/-- Embedding of Python dict assignment `doc[k] = v`: overwrite the entry if
the key is present, append it otherwise. -/
def setKey (doc : Doc) (k : String) (v : Val) : Doc :=
  if hasKey doc k then doc.map (fun kv => if kv.1 == k then (k, v) else kv)
  else doc ++ [(k, v)]

/-- Modelled from the spec: `Resource.filterDocument(doc, allow=keys)` is
defined in `rest.py`, which is not part of this slice; per spec section 4.3
the field filter "returns a copy of the entity containing only fields" that
are visible, here the keys in the allow list. -/
def filterDocument (doc : Doc) (allow : List String) : Doc :=
  doc.filter (fun kv => allow.contains kv.1)

/-- The base field allow-list of `User._filter` (user.py lines 54-55). -/
def baseUserKeys : List String :=
  ["_id", "login", "public", "firstName", "lastName", "admin", "created"]

/-- The extra fields `User._filter` allows for callers with ADMIN access on
the user (user.py line 58). -/
def adminOnlyUserKeys : List String :=
  ["size", "email", "groups", "groupInvites"]

/-- The allow-list built by `User._filter`: the base keys, extended with the
admin-only keys when the requester has ADMIN access on the user. -/
def allowedUserKeys (hasAdminAccess : Bool) : List String :=
  if hasAdminAccess then baseUserKeys ++ adminOnlyUserKeys else baseUserKeys

/-- Embedding of the body of `User._filter` for a present user document
(user.py lines 52-65).  `hasAdminAccess` stands for the external call
`self.model('user').hasAccess(user, currentUser, AccessType.ADMIN)` and
`accessLevel` for `self.model('user').getAccessLevel(user, currentUser)`. -/
def filterUserDoc (hasAdminAccess : Bool) (accessLevel : Int) (doc : Doc) :
    Doc :=
  setKey (filterDocument doc (allowedUserKeys hasAdminAccess)) "_accessLevel"
    (Val.n accessLevel)

/-- Embedding of `User._filter` (user.py lines 45-65), including the early
return of `None` for an absent user. -/
def filterUser (hasAdminAccess : Bool) (accessLevel : Int)
    (user : Option Doc) : Option Doc :=
  match user with
  | none => none
  | some doc => some (filterUserDoc hasAdminAccess accessLevel doc)

/-- Modelled from the spec: one entry of the `docs` module's route registry.
The `docs` module is not part of this slice; spec section 4.2 has
`register(resourceName, method, pathPattern, handlerId, description,
docVisible)` record each route registration, in registration order. -/
structure RouteReg where
  resource : String
  path : String
  method : String
  docVisible : Bool
deriving DecidableEq, Repr

/-- Modelled from the spec: whether a resource has at least one doc-visible
registered route, which per spec sections 4.2 and 8 is exactly when it
appears in the discovery index (`docs.discovery`) and in `docs.routes`. -/
def hasDocRoute (regs : List RouteReg) (r : String) : Bool :=
  regs.any (fun g => g.resource == r && g.docVisible)

/-- Modelled from the spec: the discovery index `docs.discovery` as a
duplicate-free list of the resource names with a doc-visible route. -/
def discovery (regs : List RouteReg) : List String :=
  ((regs.filter (fun g => g.docVisible)).map (fun g => g.resource)).dedup

/-- Embedding of `sorted(docs.discovery)` in `Describe.listResources`
(describe.py line 121). -/
def listResourceNames (regs : List RouteReg) : List String :=
  (discovery regs).insertionSort (fun a b => a ≤ b)

/-- Embedding of the `apis` sequence built by `Describe.listResources`
(describe.py lines 114-122): one entry `/{resource}` per discovered
resource, in sorted order. -/
def listResources (regs : List RouteReg) : List String :=
  (listResourceNames regs).map (fun r => "/" ++ r)

/-- Modelled from the spec: the distinct path patterns under a resource in
`docs.routes[resource]`, which spec section 4.2 describes as grouping the
registered operations "per distinct path pattern under that resource". -/
def distinctPaths (regs : List RouteReg) (r : String) : List String :=
  ((regs.filter (fun g => g.resource == r && g.docVisible)).map
    (fun g => g.path)).dedup

/-- Modelled from the spec: the operations grouped under one path pattern of
a resource, in registration order (spec section 4.2). -/
def opsForPath (regs : List RouteReg) (r path : String) : List RouteReg :=
  regs.filter (fun g => g.resource == r && g.docVisible && g.path == path)

/-- Result of the `describeResource` endpoint: a `RestException` or the
`apis` list pairing each path pattern with its grouped operations. -/
inductive DescribeResult where
  | err (message : String) (code : Nat)
  | ok (apis : List (String × List RouteReg))
deriving DecidableEq, Repr

/-- Embedding of `Describe.describeResource` (describe.py lines 124-135):
an unregistered name raises `RestException('Invalid resource: ...')` with the
default status code; otherwise the response lists, per distinct path pattern,
the operations grouped under it. -/
def describeResource (regs : List RouteReg) (resource : String) :
    DescribeResult :=
  if hasDocRoute regs resource then
    .ok ((distinctPaths regs resource).map
      (fun p => (p, opsForPath regs resource p)))
  else .err ("Invalid resource: " ++ resource) restExceptionDefaultCode

/-- A parameter declaration as appended by `Description.param`
(describe.py lines 73-80); `allowMultiple` is always false. -/
structure Param where
  name : String
  description : String
  paramType : String
  dataType : String
  allowMultiple : Bool
  required : Bool
deriving DecidableEq, Repr

/-- An error response declaration as appended by `Description.errorResponse`
(describe.py lines 93-96). -/
structure ErrorResponse where
  message : String
  code : Nat
deriving DecidableEq, Repr

/-- The fields of a `Description` builder object (describe.py lines 43-48). -/
structure DescriptionObj where
  _summary : String
  _params : List Param
  _errorResponses : List ErrorResponse
  _responseClass : Option String
  _notes : Option String
deriving DecidableEq, Repr

/-- The store of builder objects.  Python builders are mutable heap objects
whose internal lists are mutated in place, so the embedding keeps every
builder in an indexed store and passes references (indices) around; a
mutator returns the reference of the builder it ran on (`return self`). -/
abbrev DescHeap := List DescriptionObj

/-- Placeholder object used as the default when dereferencing. -/
def emptyDescriptionObj : DescriptionObj := ⟨"", [], [], none, none⟩

/-- Replace the object at index `i` by the image of `f`. -/
def updateAt (h : DescHeap) (i : Nat)
    (f : DescriptionObj → DescriptionObj) : DescHeap :=
  match h, i with
  | [], _ => []
  | x :: xs, 0 => f x :: xs
  | x :: xs, n + 1 => x :: updateAt xs n f

/-- Embedding of `Description(summary)` (describe.py lines 43-48): allocate
a fresh builder and return its reference. -/
def descriptionNew (h : DescHeap) (summary : String) : DescHeap × Nat :=
  (h ++ [⟨summary, [], [], none, none⟩], h.length)

/-- Embedding of `Description.param` (describe.py lines 66-81): append a
parameter declaration to the builder's list in place and return the same
builder reference.  The source's default arguments are `paramType='query'`,
`dataType='string'`, `required=True`; callers here pass them explicitly. -/
def descriptionParam (h : DescHeap) (d : Nat)
    (name description paramType dataType : String) (required : Bool) :
    DescHeap × Nat :=
  (updateAt h d (fun o =>
    ⟨o._summary,
      o._params ++ [⟨name, description, paramType, dataType, false, required⟩],
      o._errorResponses, o._responseClass, o._notes⟩), d)

/-- Embedding of `Description.notes` (describe.py lines 83-85). -/
def descriptionNotes (h : DescHeap) (d : Nat) (notes : String) :
    DescHeap × Nat :=
  (updateAt h d (fun o =>
    ⟨o._summary, o._params, o._errorResponses, o._responseClass,
      some notes⟩), d)

/-- Embedding of `Description.errorResponse` (describe.py lines 87-97); the
source's defaults are `reason='A parameter was invalid.'`, `code=400`. -/
def descriptionErrorResponse (h : DescHeap) (d : Nat) (reason : String)
    (code : Nat) : DescHeap × Nat :=
  (updateAt h d (fun o =>
    ⟨o._summary, o._params, o._errorResponses ++ [⟨reason, code⟩],
      o._responseClass, o._notes⟩), d)

/-- Embedding of `Description.responseClass` (describe.py lines 62-64). -/
def descriptionResponseClass (h : DescHeap) (d : Nat) (obj : String) :
    DescHeap × Nat :=
  (updateAt h d (fun o =>
    ⟨o._summary, o._params, o._errorResponses, some obj, o._notes⟩), d)

/-- The dict returned by `Description.asDict` (describe.py lines 50-60): the
summary, notes and responseClass entries hold the current scalar values,
while the parameters and errorResponses entries hold the builder's own list
objects — the dict aliases those lists rather than copying them, which the
embedding records by storing the builder's reference. -/
structure DescDict where
  summary : String
  notes : Option String
  parametersRef : Nat
  errorResponsesRef : Nat
  responseClass : Option String
deriving DecidableEq, Repr

/-- Embedding of `Description.asDict` (describe.py lines 50-60). -/
def descriptionAsDict (h : DescHeap) (d : Nat) : DescDict :=
  ⟨(h.getD d emptyDescriptionObj)._summary,
    (h.getD d emptyDescriptionObj)._notes, d, d,
    (h.getD d emptyDescriptionObj)._responseClass⟩

/-- The value a consumer of an exported dict observes at some later time:
the scalar entries as stored in the dict, and the aliased lists as they are
in the heap at that time. -/
structure DescValue where
  summary : String
  notes : Option String
  parameters : List Param
  errorResponses : List ErrorResponse
  responseClass : Option String
deriving DecidableEq, Repr

/-- Dereference an exported dict against a heap. -/
def readDict (h : DescHeap) (dd : DescDict) : DescValue :=
  ⟨dd.summary, dd.notes,
    (h.getD dd.parametersRef emptyDescriptionObj)._params,
    (h.getD dd.errorResponsesRef emptyDescriptionObj)._errorResponses,
    dd.responseClass⟩

/-- The arguments of one `param` call in a chain. -/
structure ParamArgs where
  name : String
  description : String
  paramType : String
  dataType : String
  required : Bool
deriving DecidableEq, Repr

/-- The parameter declaration a `param` call with these arguments appends. -/
def ParamArgs.toParam (a : ParamArgs) : Param :=
  ⟨a.name, a.description, a.paramType, a.dataType, false, a.required⟩

/-- A left-to-right chain of `param` calls, each running on the builder
reference returned by the previous call. -/
def applyParams (h : DescHeap) (d : Nat) : List ParamArgs → DescHeap × Nat
  | [] => (h, d)
  | a :: rest =>
    let r := descriptionParam h d a.name a.description a.paramType
      a.dataType a.required
    applyParams r.1 r.2 rest

end Girder

namespace Girder

/-- Splitting at the first occurrence of `c`, on character lists: when `c`
does not occur in `l`, the split of `l ++ c :: p` is exactly `(l, p)`. -/
theorem splitFirstAux_append (c : Char) (l p : List Char) (hl : c ∉ l) :
    splitFirstAux c (l ++ c :: p) = some (l, p) := by
  induction l with
  | nil => simp [splitFirstAux]
  | cons x xs ih =>
    have hx : ¬ x = c := fun h => hl (by simp [h])
    have hxs : c ∉ xs := fun h => hl (List.mem_cons_of_mem x h)
    simp [splitFirstAux, hx, ih hxs]

/-- Python's `split(':', 1)` splits at the first colon only: when `l` is
colon-free, `l ++ ":" ++ p` splits into login part `l` and password part `p`,
even when `p` itself contains colons. -/
theorem splitFirst_first_colon (l p : String) (hl : ':' ∉ l.data) :
    splitFirst (l ++ ":" ++ p) ':' = some (l, p) := by
  have hdata : (l ++ ":" ++ p).data = l.data ++ ':' :: p.data := by
    simp [String.data_append]
  rw [splitFirst, hdata, splitFirstAux_append ':' l.data p.data hl]

/-- C1: for every login attempt with a well-formed Basic Authorization header
(no valid session, decodable credentials containing a colon), if no identity
matches the supplied login identifier, or if an identity matches but the
supplied password does not verify, login fails with the identical error:
message "Login failed." and status code 403 in both cases, leaving the token
store unchanged and setting no cookie. -/
theorem login_failure_indistinguishable
    (users : List UserDoc) (authenticate : UserDoc → String → Bool)
    (b64decode : String → Option String) (days : Nat) (st : TokenState)
    (h cred l p : String)
    (hB : pySlice h 6 = "Basic ")
    (hdec : b64decode (pySliceFrom h 6) = some cred)
    (hsplit : splitFirst cred ':' = some (l, p))
    (hfail :
      users.find? (fun u =>
        (if pyContains (pyStrip (pyLower l)) '@' then u.email else u.login)
          == pyStrip (pyLower l)) = none ∨
      ∃ u, users.find? (fun u =>
        (if pyContains (pyStrip (pyLower l)) '@' then u.email else u.login)
          == pyStrip (pyLower l)) = some u ∧ authenticate u p = false) :
    login users authenticate b64decode days none (some h) st =
      (.err "Login failed." 403, st, none) := by
  rcases hfail with hnone | ⟨u, hu, hauth⟩
  · simp [login, hB, hdec, hsplit, hnone]
  · simp [login, hB, hdec, hsplit, hu, hauth]

/-- Witness for C1 at a concrete input: the store holds only the user
"alice", the supplied credentials name the nonexistent user "bob", and login
fails with "Login failed." and status 403. -/
theorem login_failure_indistinguishable_witness :
    login [⟨1, "alice", "a@x.com", "A", "L", false⟩] (fun _ _ => false)
      (fun _ => some "bob:pw") 180 none (some "Basic eA==") ⟨[], 0⟩ =
      (.err "Login failed." 403, ⟨[], 0⟩, none) :=
  login_failure_indistinguishable
    [⟨1, "alice", "a@x.com", "A", "L", false⟩] (fun _ _ => false)
    (fun _ => some "bob:pw") 180 ⟨[], 0⟩ "Basic eA==" "bob:pw" "bob" "pw"
    (by decide) rfl (by decide) (Or.inl (by decide))

/-- C2: for every decoded Basic-auth credential string, login splits it into
login identifier and password at the first colon only (the password keeps any
further colons), lower-cases and whitespace-trims the login identifier, and
looks the identity up by the email field when the normalized identifier
contains an at sign and by the login-name field otherwise; the whole remainder
after the first colon is the password handed to the verifier. -/
theorem login_credential_parsing
    (users : List UserDoc) (authenticate : UserDoc → String → Bool)
    (b64decode : String → Option String) (days : Nat) (st : TokenState)
    (h l p : String)
    (hB : pySlice h 6 = "Basic ")
    (hdec : b64decode (pySliceFrom h 6) = some (l ++ ":" ++ p))
    (hl : ':' ∉ l.data) :
    login users authenticate b64decode days none (some h) st =
      (match users.find? (fun u =>
          (if pyContains (pyStrip (pyLower l)) '@' then u.email else u.login)
            == pyStrip (pyLower l)) with
       | none => (.err "Login failed." 403, st, none)
       | some user =>
         if authenticate user p then
           (.ok user (createToken st user days).1, (createToken st user days).2,
             some ⟨"authToken", toString user._id,
               toString (createToken st user days).1._id, "/",
               days * 3600 * 24⟩)
         else (.err "Login failed." 403, st, none)) := by
  have hs := splitFirst_first_colon l p hl
  cases hfind : users.find? (fun u =>
      (if pyContains (pyStrip (pyLower l)) '@' then u.email else u.login)
        == pyStrip (pyLower l)) with
  | none => simp [login, hB, hdec, hs, hfind]
  | some u =>
    cases hauth : authenticate u p with
    | false => simp [login, hB, hdec, hs, hfind, hauth]
    | true =>
      simp [login, hB, hdec, hs, hfind, hauth, sendAuthTokenCookie,
        createToken]

/-- Witness for C2 at a concrete input: credentials decode to
"Alice :p:w"; the identifier "Alice " is lower-cased and trimmed to "alice",
looked up as a login name (no at sign), and the password handed to the
verifier is "p:w" with its colon intact, so login succeeds. -/
theorem login_credential_parsing_witness :
    login [⟨1, "alice", "a@x.com", "A", "L", false⟩]
      (fun _ pw => pw == "p:w") (fun _ => some "Alice :p:w") 180 none
      (some "Basic eA==") ⟨[], 0⟩ =
      (.ok ⟨1, "alice", "a@x.com", "A", "L", false⟩ ⟨0, 1, 180⟩,
        ⟨[⟨0, 1, 180⟩], 1⟩,
        some ⟨"authToken", "1", "0", "/", 15552000⟩) := by
  have h := login_credential_parsing
      [⟨1, "alice", "a@x.com", "A", "L", false⟩]
      (fun _ pw => pw == "p:w") (fun _ => some "Alice :p:w") 180 ⟨[], 0⟩
      "Basic eA==" "Alice " "p:w" (by decide) rfl (by decide)
  rw [h]
  decide

/-- C3 counterexample: at the concrete input where the Authorization header is
"Basic !" and base64 decoding of its remainder fails, login fails with message
"Invalid HTTP Authorization header" and the default status code 400 — not
with the 401 missing-credentials error the claim asserts for every malformed
header. -/
theorem login_decode_failure_code_counterexample :
    login [] (fun _ _ => false) (fun _ => none) 180 none (some "Basic !")
        ⟨[], 0⟩ =
      (.err "Invalid HTTP Authorization header" 400, ⟨[], 0⟩, none) ∧
    (400 : Nat) ≠ 401 := by
  constructor
  · decide
  · decide

/-- C3 amended: for every login request without a valid session, a missing
Authorization header or one not starting with "Basic " fails with status 401
and message "Use HTTP Basic Authentication", while a header whose remainder
fails base64 decoding fails with the default-code error: status 400 and
message "Invalid HTTP Authorization header"; in every such case the outcome is
independent of the identity store and of the password verifier (so identity
lookup and password verification are never reached), the token store is left
unchanged and no cookie is set. -/
theorem login_malformed_header
    (users usersB : List UserDoc)
    (authenticate authenticateB : UserDoc → String → Bool)
    (b64decode : String → Option String) (days : Nat) (st : TokenState)
    (h : String) :
    login users authenticate b64decode days none none st =
      (.err "Use HTTP Basic Authentication" 401, st, none) ∧
    (¬ pySlice h 6 = "Basic " →
      login users authenticate b64decode days none (some h) st =
        (.err "Use HTTP Basic Authentication" 401, st, none)) ∧
    (pySlice h 6 = "Basic " → b64decode (pySliceFrom h 6) = none →
      login users authenticate b64decode days none (some h) st =
        (.err "Invalid HTTP Authorization header" 400, st, none)) ∧
    ((¬ pySlice h 6 = "Basic " ∨ b64decode (pySliceFrom h 6) = none) →
      login users authenticate b64decode days none (some h) st =
        login usersB authenticateB b64decode days none (some h) st) := by
  refine ⟨rfl, fun hB => ?_, fun hB hdec => ?_, fun hcase => ?_⟩
  · simp [login, hB]
  · simp [login, hB, hdec, restExceptionDefaultCode]
  · rcases hcase with hB | hdec
    · simp [login, hB]
    · by_cases hB : pySlice h 6 = "Basic "
      · simp [login, hB, hdec]
      · simp [login, hB]

/-- Witness for C3 (amended) at concrete inputs: a non-Basic header fails
with 401, and a Basic header whose remainder fails decoding fails with 400,
in both cases independently of a nonempty identity store. -/
theorem login_malformed_header_witness :
    login [⟨1, "alice", "a@x.com", "A", "L", false⟩] (fun _ _ => true)
        (fun _ => none) 180 none (some "Bearer x") ⟨[], 0⟩ =
      (.err "Use HTTP Basic Authentication" 401, ⟨[], 0⟩, none) ∧
    login [⟨1, "alice", "a@x.com", "A", "L", false⟩] (fun _ _ => true)
        (fun _ => none) 180 none (some "Basic !") ⟨[], 0⟩ =
      (.err "Invalid HTTP Authorization header" 400, ⟨[], 0⟩, none) ∧
    login [⟨1, "alice", "a@x.com", "A", "L", false⟩] (fun _ _ => true)
        (fun _ => none) 180 none (some "Basic !") ⟨[], 0⟩ =
      login [] (fun _ _ => false) (fun _ => none) 180 none (some "Basic !")
        ⟨[], 0⟩ := by
  refine ⟨?_, ?_, ?_⟩
  · exact (login_malformed_header
      [⟨1, "alice", "a@x.com", "A", "L", false⟩] [] (fun _ _ => true)
      (fun _ _ => false) (fun _ => none) 180 ⟨[], 0⟩ "Bearer x").2.1
      (by decide)
  · exact (login_malformed_header
      [⟨1, "alice", "a@x.com", "A", "L", false⟩] [] (fun _ _ => true)
      (fun _ _ => false) (fun _ => none) 180 ⟨[], 0⟩ "Basic !").2.2.1
      (by decide) rfl
  · exact (login_malformed_header
      [⟨1, "alice", "a@x.com", "A", "L", false⟩] [] (fun _ _ => true)
      (fun _ _ => false) (fun _ => none) 180 ⟨[], 0⟩ "Basic !").2.2.2
      (Or.inr rfl)

/-- C10: for every login request whose cookie already resolves to a valid
user and token, login returns exactly that user and token, leaves the token
store unchanged and sets no cookie; moreover the result is independent of the
Authorization header and of every other collaborator (identity store,
password verifier, base64 decoder, configured lifetime), so the header is
never read and no new token is created. -/
theorem login_existing_session
    (users usersB : List UserDoc)
    (authenticate authenticateB : UserDoc → String → Bool)
    (b64decode b64decodeB : String → Option String) (days daysB : Nat)
    (u : UserDoc) (t : TokenDoc) (hdr hdrB : Option String)
    (st : TokenState) :
    login users authenticate b64decode days (some (u, t)) hdr st =
      (.ok u t, st, none) ∧
    login users authenticate b64decode days (some (u, t)) hdr st =
      login usersB authenticateB b64decodeB daysB (some (u, t)) hdrB st :=
  ⟨rfl, rfl⟩

/-- C4: on every successful login through the Basic-auth path, the response
sets the cookie named "authToken" whose value is the JSON object with entries
userId (the identity id) and token (the new token id), whose path is "/" and
whose lifetime in seconds is the configured number of days times 86400; the
configured number of days defaults to 180 when no setting is configured. -/
theorem login_success_cookie
    (users : List UserDoc) (authenticate : UserDoc → String → Bool)
    (b64decode : String → Option String) (configured : Option Nat)
    (hdr : Option String) (st : TokenState) (u : UserDoc) (t : TokenDoc)
    (hok : (login users authenticate b64decode
        (cookieLifetimeSetting configured) none hdr st).1 = .ok u t) :
    (login users authenticate b64decode (cookieLifetimeSetting configured)
        none hdr st).2.2 =
      some ⟨"authToken", toString u._id, toString t._id, "/",
        cookieLifetimeSetting configured * 86400⟩ ∧
    cookieLifetimeSetting none = 180 := by
  refine ⟨?_, rfl⟩
  cases hdr with
  | none => simp [login] at hok
  | some h =>
    by_cases hB : pySlice h 6 = "Basic "
    · cases hdec : b64decode (pySliceFrom h 6) with
      | none => simp [login, hB, hdec] at hok
      | some cred =>
        cases hsplit : splitFirst cred ':' with
        | none => simp [login, hB, hdec, hsplit] at hok
        | some lp =>
          cases hfind : users.find? (fun x =>
              (if pyContains (pyStrip (pyLower lp.1)) '@' then x.email
                else x.login) == pyStrip (pyLower lp.1)) with
          | none => simp [login, hB, hdec, hsplit, hfind] at hok
          | some user =>
            cases hauth : authenticate user lp.2 with
            | false => simp [login, hB, hdec, hsplit, hfind, hauth] at hok
            | true =>
              simp [login, hB, hdec, hsplit, hfind, hauth,
                sendAuthTokenCookie, createToken] at hok ⊢
              obtain ⟨hu, ht⟩ := hok
              subst hu
              refine ⟨?_, ?_, ?_⟩
              · rfl
              · rw [← ht]
              · omega
    · simp [login, hB] at hok

/-- Witness for C4 at a concrete input: with no configured setting the
lifetime is 180 days, a successful login for "alice" sets the authToken
cookie for user id 1 and fresh token id 0 at path "/" with lifetime
180 * 86400 seconds. -/
theorem login_success_cookie_witness :
    (login [⟨1, "alice", "a@x.com", "A", "L", false⟩] (fun _ _ => true)
        (fun _ => some "alice:pw") (cookieLifetimeSetting none) none
        (some "Basic eA==") ⟨[], 0⟩).2.2 =
      some ⟨"authToken", toString (1 : Nat), toString (0 : Nat), "/",
        cookieLifetimeSetting none * 86400⟩ ∧
    cookieLifetimeSetting none = 180 :=
  login_success_cookie [⟨1, "alice", "a@x.com", "A", "L", false⟩]
    (fun _ _ => true) (fun _ => some "alice:pw") none (some "Basic eA==")
    ⟨[], 0⟩ ⟨1, "alice", "a@x.com", "A", "L", false⟩ ⟨0, 1, 180⟩ (by decide)

/-- A key survives the allow-list filter exactly when it is present in the
document and allowed. -/
theorem hasKey_cons (a : String × Val) (ds : Doc) (k : String) :
    hasKey (a :: ds) k = ((a.1 == k) || hasKey ds k) := rfl

theorem hasKey_append2 (d1 d2 : Doc) (k : String) :
    hasKey (d1 ++ d2) k = (hasKey d1 k || hasKey d2 k) := by
  simp only [hasKey, List.any_append]

theorem hasKey_filterDocument (doc : Doc) (allow : List String) (k : String) :
    hasKey (filterDocument doc allow) k =
      (hasKey doc k && allow.contains k) := by
  induction doc with
  | nil => rfl
  | cons a ds ih =>
    unfold filterDocument at ih ⊢
    rw [List.filter_cons]
    cases hc : allow.contains a.1 with
    | true =>
      rw [if_pos rfl, hasKey_cons, hasKey_cons, ih]
      cases hk : a.1 == k with
      | true =>
        have hek : a.1 = k := eq_of_beq hk
        rw [← hek, hc]
        simp
      | false => simp
    | false =>
      rw [if_neg Bool.false_ne_true, ih, hasKey_cons]
      cases hk : a.1 == k with
      | true =>
        have hek : a.1 = k := eq_of_beq hk
        rw [← hek, hc]
        simp
      | false => simp

/-- Looking up a key appended to a document that did not contain it. -/
theorem lookup_append_fresh (doc : Doc) (k : String) (v : Val)
    (h : hasKey doc k = false) :
    List.lookup k (doc ++ [(k, v)]) = some v := by
  induction doc with
  | nil => simp [List.lookup]
  | cons a ds ih =>
    simp only [hasKey, List.any_cons, Bool.or_eq_false_iff] at h
    have hne : (k == a.1) = false := by
      cases hb : k == a.1 with
      | true => exact absurd (eq_of_beq hb).symm (by simpa using h.1)
      | false => rfl
    simpa [List.lookup, hne] using ih (by simpa [hasKey] using h.2)

/-- The `_accessLevel` key is never on the allow-list, so `_filter` appends
it fresh. -/
theorem filterUserDoc_eq_append (b : Bool) (lvl : Int) (doc : Doc) :
    filterUserDoc b lvl doc =
      filterDocument doc (allowedUserKeys b) ++
        [("_accessLevel", Val.n lvl)] := by
  have h : hasKey (filterDocument doc (allowedUserKeys b)) "_accessLevel" =
      false := by
    rw [hasKey_filterDocument]
    have hc : (allowedUserKeys b).contains "_accessLevel" = false := by
      cases b <;> decide
    rw [hc, Bool.and_false]
  unfold filterUserDoc setKey
  rw [h, if_neg Bool.false_ne_true]

/-- C5: for every non-absent user entity and every requester, the filtered
entity always carries the computed `_accessLevel` field holding the
requester's resolved level; each base field (id, login, public flag, names,
admin flag, creation time) present on the entity is retained for every
caller, while each extra field (size, email, groups, group invites) is
retained exactly when the requester has ADMIN access on the entity; an absent
entity filters to an absent result. -/
theorem filter_user_fields (hasAdminAccess : Bool) (accessLevel : Int)
    (doc : Doc) (k : String) :
    filterUser hasAdminAccess accessLevel none = none ∧
    filterUser hasAdminAccess accessLevel (some doc) =
      some (filterUserDoc hasAdminAccess accessLevel doc) ∧
    List.lookup "_accessLevel"
        (filterUserDoc hasAdminAccess accessLevel doc) =
      some (Val.n accessLevel) ∧
    (k ∈ baseUserKeys →
      (hasKey (filterUserDoc hasAdminAccess accessLevel doc) k = true ↔
        hasKey doc k = true)) ∧
    (k ∈ adminOnlyUserKeys →
      (hasKey (filterUserDoc hasAdminAccess accessLevel doc) k = true ↔
        (hasAdminAccess = true ∧ hasKey doc k = true))) := by
  have hfresh : hasKey (filterDocument doc (allowedUserKeys hasAdminAccess))
      "_accessLevel" = false := by
    rw [hasKey_filterDocument]
    have hc : (allowedUserKeys hasAdminAccess).contains "_accessLevel" =
        false := by
      cases hasAdminAccess <;> decide
    rw [hc, Bool.and_false]
  refine ⟨rfl, rfl, ?_, ?_, ?_⟩
  · rw [filterUserDoc_eq_append]
    exact lookup_append_fresh _ _ _ hfresh
  · intro hb
    rw [filterUserDoc_eq_append]
    have hne : ("_accessLevel" == k) = false := by
      fin_cases hb <;> decide
    have hallow : (allowedUserKeys hasAdminAccess).contains k = true := by
      cases hasAdminAccess <;> fin_cases hb <;> decide
    rw [hasKey_append2, hasKey_filterDocument, hallow, Bool.and_true,
      hasKey_cons]
    show (hasKey doc k || ((("_accessLevel" == k) : Bool) || hasKey [] k))
        = true ↔ hasKey doc k = true
    rw [hne]
    simp [hasKey]
  · intro hb
    rw [filterUserDoc_eq_append]
    have hne : ("_accessLevel" == k) = false := by
      fin_cases hb <;> decide
    have hallow : (allowedUserKeys hasAdminAccess).contains k =
        hasAdminAccess := by
      cases hasAdminAccess <;> fin_cases hb <;> decide
    rw [hasKey_append2, hasKey_filterDocument, hallow, hasKey_cons]
    show ((hasKey doc k && hasAdminAccess) ||
          ((("_accessLevel" == k) : Bool) || hasKey [] k)) = true ↔
        (hasAdminAccess = true ∧ hasKey doc k = true)
    rw [hne]
    simp [hasKey]
    exact and_comm

/-- Witness for C5 at a concrete input: an admin-level requester sees the
`_accessLevel` field set to 2 and retains the admin-only `email` field. -/
theorem filter_user_fields_witness :
    List.lookup "_accessLevel"
        (filterUserDoc true 2 [("_id", Val.n 1), ("email", Val.s "a@x.com")]) =
      some (Val.n 2) ∧
    (hasKey (filterUserDoc true 2
        [("_id", Val.n 1), ("email", Val.s "a@x.com")]) "email" = true ↔
      (true = true ∧
        hasKey [("_id", Val.n 1), ("email", Val.s "a@x.com")] "email" =
          true)) := by
  have h := filter_user_fields true 2
    [("_id", Val.n 1), ("email", Val.s "a@x.com")] "email"
  exact ⟨h.2.2.1, h.2.2.2.2 (by decide)⟩

/-- Strings with equal character data are equal. -/
theorem string_data_inj {s r : String} (h : s.data = r.data) : s = r := by
  cases s
  cases r
  exact congrArg String.mk h

/-- C7: for every state of the route registry, the resource list contains
the catalog path `/{resource}` exactly for the resources with at least one
doc-visible route, and the underlying resource names are listed sorted
lexicographically. -/
theorem listResources_catalog (regs : List RouteReg) (r : String) :
    ((("/" ++ r) ∈ listResources regs) ↔ hasDocRoute regs r = true) ∧
    List.Sorted (fun a b => a ≤ b) (listResourceNames regs) ∧
    listResources regs = (listResourceNames regs).map (fun s => "/" ++ s) := by
  refine ⟨?_, List.sorted_insertionSort _ _, rfl⟩
  rw [listResources, List.mem_map]
  constructor
  · rintro ⟨s, hs, he⟩
    obtain rfl : s = r := by
      have hd := congrArg String.data he
      rw [String.data_append, String.data_append] at hd
      exact string_data_inj (List.append_cancel_left hd)
    rw [listResourceNames] at hs
    have hmem : s ∈ discovery regs := (List.perm_insertionSort _ _).subset hs
    rw [discovery, List.mem_dedup, List.mem_map] at hmem
    obtain ⟨g, hg, rfl⟩ := hmem
    rw [List.mem_filter] at hg
    rw [hasDocRoute, List.any_eq_true]
    exact ⟨g, hg.1, by simp [hg.2]⟩
  · intro hr
    rw [hasDocRoute, List.any_eq_true] at hr
    obtain ⟨g, hg, hgt⟩ := hr
    rw [Bool.and_eq_true, beq_iff_eq] at hgt
    refine ⟨r, ?_, rfl⟩
    rw [listResourceNames]
    apply (List.perm_insertionSort _ _).mem_iff.mpr
    rw [discovery, List.mem_dedup, List.mem_map]
    exact ⟨g, List.mem_filter.mpr ⟨hg, hgt.2⟩, hgt.1⟩

/-- C6: for every resource name that was never registered with a doc-visible
route, `describeResource` fails with the 400-class error whose message is
`Invalid resource: <name>`, and for every registered name it succeeds,
returning per distinct path pattern the operations grouped under it: the
listed paths are exactly the distinct doc-visible paths of the resource,
without duplicates, and every doc-visible registration of the resource
appears in the group of its path. -/
theorem describeResource_catalog (regs : List RouteReg) (r : String) :
    (hasDocRoute regs r = false →
      describeResource regs r = .err ("Invalid resource: " ++ r) 400) ∧
    (hasDocRoute regs r = true →
      describeResource regs r =
        .ok ((distinctPaths regs r).map
          (fun p => (p, opsForPath regs r p))) ∧
      ((distinctPaths regs r).map
          (fun p => (p, opsForPath regs r p))).map Prod.fst =
        distinctPaths regs r ∧
      (distinctPaths regs r).Nodup ∧
      ∀ g ∈ regs, g.resource = r → g.docVisible = true →
        g.path ∈ distinctPaths regs r ∧ g ∈ opsForPath regs r g.path) := by
  constructor
  · intro h
    unfold describeResource
    rw [h, if_neg Bool.false_ne_true]
    rfl
  · intro h
    refine ⟨?_, ?_, List.nodup_dedup _, ?_⟩
    · unfold describeResource
      rw [h, if_pos rfl]
    · rw [List.map_map]
      exact List.map_id _
    · intro g hg hres hvis
      have hfil : g ∈ regs.filter
          (fun x => x.resource == r && x.docVisible) :=
        List.mem_filter.mpr ⟨hg, by simp [hres, hvis]⟩
      constructor
      · rw [distinctPaths, List.mem_dedup, List.mem_map]
        exact ⟨g, hfil, rfl⟩
      · rw [opsForPath]
        exact List.mem_filter.mpr ⟨hg, by simp [hres, hvis]⟩

/-- Witness for C6 at a concrete registry: describing the unregistered
resource "item" fails with `Invalid resource: item` and 400, and describing
the registered resource "user" returns its single path group. -/
theorem describeResource_catalog_witness :
    describeResource [⟨"user", "/user", "GET", true⟩] "item" =
      .err "Invalid resource: item" 400 ∧
    describeResource [⟨"user", "/user", "GET", true⟩] "user" =
      .ok [("/user", [⟨"user", "/user", "GET", true⟩])] := by
  constructor
  · exact (describeResource_catalog [⟨"user", "/user", "GET", true⟩]
      "item").1 (by decide)
  · exact ((describeResource_catalog [⟨"user", "/user", "GET", true⟩]
      "user").2 (by decide)).1.trans (by decide)

theorem updateAt_length (h : DescHeap) (i : Nat)
    (f : DescriptionObj → DescriptionObj) :
    (updateAt h i f).length = h.length := by
  induction h generalizing i with
  | nil => rfl
  | cons x xs ih =>
    cases i with
    | zero => rfl
    | succ n => simpa [updateAt] using ih n

theorem getD_updateAt (h : DescHeap) (i : Nat)
    (f : DescriptionObj → DescriptionObj) (hi : i < h.length) :
    (updateAt h i f).getD i emptyDescriptionObj =
      f (h.getD i emptyDescriptionObj) := by
  induction h generalizing i with
  | nil => exact absurd hi (by simp)
  | cons x xs ih =>
    cases i with
    | zero => rfl
    | succ n =>
      simp only [updateAt, List.getD_cons_succ]
      exact ih n (by simpa using hi)

theorem getD_append_self (h : DescHeap) (x : DescriptionObj) :
    (h ++ [x]).getD h.length emptyDescriptionObj = x := by
  induction h with
  | nil => rfl
  | cons y ys ih =>
    simp only [List.cons_append, List.length_cons, List.getD_cons_succ]
    exact ih

/-- A chain of `param` calls keeps the builder reference, keeps the heap
size, and appends exactly the declared parameters in call order. -/
theorem applyParams_spec (calls : List ParamArgs) (h : DescHeap) (d : Nat)
    (hd : d < h.length) :
    (applyParams h d calls).2 = d ∧
    (applyParams h d calls).1.length = h.length ∧
    ((applyParams h d calls).1.getD d emptyDescriptionObj)._params =
      (h.getD d emptyDescriptionObj)._params ++
        calls.map ParamArgs.toParam := by
  induction calls generalizing h with
  | nil => simp [applyParams]
  | cons a rest ih =>
    have hlen : (descriptionParam h d a.name a.description a.paramType
        a.dataType a.required).1.length = h.length := updateAt_length h d _
    obtain ⟨h1, h2, h3⟩ := ih (descriptionParam h d a.name a.description
      a.paramType a.dataType a.required).1 (by rw [hlen]; exact hd)
    refine ⟨h1, ?_, ?_⟩
    · show (applyParams (descriptionParam h d a.name a.description
        a.paramType a.dataType a.required).1 d rest).1.length = h.length
      rw [h2, hlen]
    · show ((applyParams (descriptionParam h d a.name a.description
          a.paramType a.dataType a.required).1 d rest).1.getD d
            emptyDescriptionObj)._params =
        (h.getD d emptyDescriptionObj)._params ++
          (a :: rest).map ParamArgs.toParam
      rw [h3]
      show ((updateAt h d _).getD d emptyDescriptionObj)._params ++
          rest.map ParamArgs.toParam = _
      rw [getD_updateAt h d _ hd]
      simp [ParamArgs.toParam]

/-- C8: every mutator (`param`, `notes`, `errorResponse`, `responseClass`)
returns the very builder reference it was called on, so calls chain
left-to-right, and after any chain of `param` calls on a fresh builder the
exported parameters sequence lists the parameters exactly in the order the
calls were made. -/
theorem description_builder_chain (h : DescHeap) (d : Nat)
    (summary name desc pType dType reason obj ns : String) (required : Bool)
    (code : Nat) (calls : List ParamArgs) :
    (descriptionParam h d name desc pType dType required).2 = d ∧
    (descriptionNotes h d ns).2 = d ∧
    (descriptionErrorResponse h d reason code).2 = d ∧
    (descriptionResponseClass h d obj).2 = d ∧
    (readDict (applyParams (descriptionNew h summary).1
          (descriptionNew h summary).2 calls).1
        (descriptionAsDict
          (applyParams (descriptionNew h summary).1
            (descriptionNew h summary).2 calls).1
          (applyParams (descriptionNew h summary).1
            (descriptionNew h summary).2 calls).2)).parameters =
      calls.map ParamArgs.toParam := by
  refine ⟨rfl, rfl, rfl, rfl, ?_⟩
  have hd : (descriptionNew h summary).2 <
      (descriptionNew h summary).1.length := by
    simp [descriptionNew]
  obtain ⟨h1, h2, h3⟩ := applyParams_spec calls
    (descriptionNew h summary).1 (descriptionNew h summary).2 hd
  show ((applyParams (descriptionNew h summary).1
      (descriptionNew h summary).2 calls).1.getD
        (applyParams (descriptionNew h summary).1
          (descriptionNew h summary).2 calls).2
        emptyDescriptionObj)._params = calls.map ParamArgs.toParam
  rw [h1, h3]
  show ((((h ++ [(⟨summary, [], [], none, none⟩ : DescriptionObj)]).getD
      h.length emptyDescriptionObj))._params) ++
      calls.map ParamArgs.toParam = calls.map ParamArgs.toParam
  rw [getD_append_self]
  rfl

/-- C9 counterexample: export a fresh builder through `asDict`, then make
one further `param` call on the builder; reading the previously exported
dict afterwards yields a different value (its parameters entry now holds the
new parameter), so the exported value is not an immutable snapshot. -/
theorem asDict_not_snapshot_counterexample :
    readDict (descriptionParam (descriptionNew [] "s").1
        (descriptionNew [] "s").2 "x" "d" "query" "string" true).1
      (descriptionAsDict (descriptionNew [] "s").1
        (descriptionNew [] "s").2) ≠
    readDict (descriptionNew [] "s").1
      (descriptionAsDict (descriptionNew [] "s").1
        (descriptionNew [] "s").2) := by
  decide

/-- C9 amended: the `asDict` export snapshots the scalar fields — the
summary, notes and responseClass entries of a previously exported dict are
unchanged whatever happens to the builder afterwards — but its parameters
and errorResponses entries alias the builder's internal lists, so a later
`param` or `errorResponse` call is visible through the previously exported
value, appending the new declaration to it. -/
theorem asDict_scalar_snapshot_list_alias (h : DescHeap) (d : Nat)
    (name desc pType dType reason : String) (required : Bool)
    (code : Nat) (hd : d < h.length) :
    (∀ h2 : DescHeap,
      (readDict h2 (descriptionAsDict h d)).summary =
        (readDict h (descriptionAsDict h d)).summary ∧
      (readDict h2 (descriptionAsDict h d)).notes =
        (readDict h (descriptionAsDict h d)).notes ∧
      (readDict h2 (descriptionAsDict h d)).responseClass =
        (readDict h (descriptionAsDict h d)).responseClass) ∧
    (readDict (descriptionParam h d name desc pType dType required).1
        (descriptionAsDict h d)).parameters =
      (readDict h (descriptionAsDict h d)).parameters ++
        [⟨name, desc, pType, dType, false, required⟩] ∧
    (readDict (descriptionErrorResponse h d reason code).1
        (descriptionAsDict h d)).errorResponses =
      (readDict h (descriptionAsDict h d)).errorResponses ++
        [⟨reason, code⟩] := by
  refine ⟨fun h2 => ⟨rfl, rfl, rfl⟩, ?_, ?_⟩
  · show ((updateAt h d _).getD d emptyDescriptionObj)._params = _
    rw [getD_updateAt h d _ hd]
    rfl
  · show ((updateAt h d _).getD d emptyDescriptionObj)._errorResponses = _
    rw [getD_updateAt h d _ hd]
    rfl

/-- Witness for C9 (amended) at a concrete heap: after exporting the single
fresh builder, one more `param` call appends to the parameters read through
the old export. -/
theorem asDict_scalar_snapshot_list_alias_witness :
    (readDict (descriptionParam [⟨"s", [], [], none, none⟩] 0
        "x" "d" "query" "string" true).1
      (descriptionAsDict [⟨"s", [], [], none, none⟩] 0)).parameters =
      (readDict [⟨"s", [], [], none, none⟩]
        (descriptionAsDict [⟨"s", [], [], none, none⟩] 0)).parameters ++
        [⟨"x", "d", "query", "string", false, true⟩] :=
  (asDict_scalar_snapshot_list_alias [⟨"s", [], [], none, none⟩] 0 "x" "d"
    "query" "string" "bad" true 400 (by decide)).2.1

end Girder
